import Mathlib

/-
  Verification of the technology-registry scripting shim
  (src/db/db/gsiDeclDbTechnologies.cc) and the hover-event binding adaptor
  (src/gsiqt/qt6/QtGui/gsiDeclQHoverEvent.cc).

  The shim functions are embedded directly from the source. External
  collaborators that are not part of the two source files (the registry
  db::Technologies, the record type db::Technology, the XML codec
  tlXMLWriter/tlXMLParser, the numeric formatter tl::micron_to_string, the
  tolerance comparison db::coord_traits and the GUI toolkit base class
  QHoverEvent) are modelled from the spec; each such definition carries a
  doc comment saying so.
-/

set_option maxHeartbeats 1000000

/-! ## Decimal formatting (model of tl::micron_to_string) -/

/-- Digit character for a value reduced modulo 10. -/
def digitChar10 (n : Nat) : Char :=
  (['0', '1', '2', '3', '4', '5', '6', '7', '8', '9']).getD (n % 10) '0'

/-- Decimal digit emitter: prepends the decimal digits of n (most
significant first) to acc. The first argument is recursion fuel; at least
one digit is always emitted, and fuel of at least n yields the exact
decimal digits. -/
def natReprAux : Nat → Nat → List Char → List Char
  | 0, n, acc => digitChar10 n :: acc
  | fuel + 1, n, acc =>
    if n < 10 then digitChar10 n :: acc
    else natReprAux fuel (n / 10) (digitChar10 n :: acc)

/-- Decimal digits of a natural number, most significant first. -/
def natDecimal (n : Nat) : List Char := natReprAux n n []

/-- Fractional part padded on the left to five digits. -/
def pad5 (m : Nat) : List Char :=
  List.replicate (5 - (natDecimal m).length) '0' ++ natDecimal m

/-- Trailing zeros removed. -/
def stripZeros (l : List Char) : List Char :=
  (l.reverse.dropWhile (fun c => c == '0')).reverse

/-- Modelled from the spec: tl::micron_to_string is not part of this
fragment. The spec requires a fixed micron-style numeric formatting rule, a
canonical decimal representation avoiding binary-float artifacts. This
model renders the value truncated to five fractional digits (micron
resolution), with trailing zeros of the fraction removed. -/
def micron_to_string (q : ℚ) : String :=
  let n : Nat := q.num.natAbs * 100000 / q.den
  let ip := n / 100000
  let fp := n % 100000
  String.mk
    ((if q.num < 0 then ['-'] else []) ++ natDecimal ip ++
      (if fp = 0 then [] else '.' :: stripZeros (pad5 fp)))

/-- Modelled from the spec: db::coord_traits of db::DCoord is not part of
this fragment. The spec requires a tolerance-aware comparison of the
coordinate system, not bit-exact equality; the tolerance is fixed here at
1e-5 (micron resolution). -/
def dequals (a b : ℚ) : Bool :=
  decide (a - b < 1 / 100000 ∧ b - a < 1 / 100000)

/-! ## Technology records (model of db::Technology) -/

/-- Modelled from the spec: the technology record type db::Technology is an
external entity referenced by the shim. The fields follow section 3 of the
spec: name, description, group label, base path (default and explicit
override), database unit, the textual default-grid list, the
layer-properties file path and the add-other-layers flag. The reader and
writer option bundles and the component sub-records are opaque external
collaborators and are not modelled. -/
structure Technology where
  name : String := ""
  description : String := ""
  group : String := ""
  default_base_path : String := ""
  explicit_base_path : String := ""
  dbu : ℚ := 1 / 1000
  default_grids : String := ""
  layer_properties_file : String := ""
  add_other_layers : Bool := true
deriving DecidableEq

/-- Modelled from the spec: a freshly constructed, default-initialized
technology record (the record is created empty). -/
def emptyTechnology : Technology := {}

/-- Setter for the name field (db::Technology::set_name). -/
def Technology.set_name (t : Technology) (n : String) : Technology :=
  { t with name := n }

/-- Setter for the textual default-grid list field
(db::Technology::set_default_grids). -/
def Technology.set_default_grids (t : Technology) (s : String) : Technology :=
  { t with default_grids := s }

/-! ## Grid-list encoder (gsiDeclDbTechnologies.cc, lines 138 to 158) -/

/-- Embedding of set_default_grid_list2: builds the comma-separated grid
string, appending the marker directly after each entry that compares equal
to default_grid under the tolerance comparison, and stores the string on
the record. -/
def set_default_grid_list2 (tech : Technology) (grids : List ℚ)
    (default_grid : ℚ) : Technology :=
  let r := grids.foldl
    (fun r g =>
      (if r = "" then r else r ++ ",") ++ micron_to_string g ++
        (if dequals g default_grid then "!" else "")) ""
  tech.set_default_grids r

/-- Embedding of set_default_grid_list: delegates to the two-argument form
with a default grid of 0.0. -/
def set_default_grid_list (tech : Technology) (grids : List ℚ) : Technology :=
  set_default_grid_list2 tech grids 0

/-- Comma-separated join of a list of strings. -/
def commaSeparated : List String → String
  | [] => ""
  | x :: xs => xs.foldl (fun r y => r ++ "," ++ y) x

/-- Text of one encoded grid entry: the formatted value followed by the
marker when the value compares equal to the default grid. -/
def gridEntry (d g : ℚ) : String :=
  micron_to_string g ++ (if dequals g d then "!" else "")

/-! ## Registry model (db::Technologies) and forwarding functions -/

/-- Modelled from the spec: the process-wide technology registry
(db::Technologies) is an external singleton. It is modelled as the ordered
list of registered records; name lookup scans in registry order. -/
abbrev Registry := List Technology

/-- Embedding of has_technology (gsiDeclDbTechnologies.cc, lines 63 to 66):
forwards to the registry existence check. -/
def has_technology (reg : Registry) (name : String) : Bool :=
  reg.any (fun t => t.name == name)

/-- Embedding of technology_by_name (lines 41 to 44): forwards to the
registry lookup; an absent name yields none. -/
def technology_by_name (reg : Registry) (name : String) : Option Technology :=
  reg.find? (fun t => t.name == name)

/-- Modelled from the spec: db::Technologies::add_new inserts a copy of the
record under its own name and returns the stored copy; on a name collision
it signals a failure to the caller rather than silently overwriting. -/
def add_new (reg : Registry) (tech : Technology) :
    Except String (Technology × Registry) :=
  if has_technology reg tech.name then
    Except.error "a technology with this name already exists"
  else
    Except.ok (tech, reg ++ [tech])

/-- Embedding of register_technology (lines 53 to 56): forwards the given
record to the registry add_new operation. -/
def register_technology (reg : Registry) (tech : Technology) :
    Except String (Technology × Registry) :=
  add_new reg tech

/-- Embedding of create_technology (lines 46 to 51): default-constructs a
record, sets its name, and forwards it to the registry add_new operation. -/
def create_technology (reg : Registry) (name : String) :
    Except String (Technology × Registry) :=
  add_new reg (emptyTechnology.set_name name)

/-- Registry state after a register_technology call: the new state on
success, the unchanged state when the call signals a failure. -/
def register_run (reg : Registry) (tech : Technology) : Registry :=
  match register_technology reg tech with
  | Except.ok (_, reg2) => reg2
  | Except.error _ => reg

/-- Embedding of remove_technology (lines 58 to 61): forwards to the
registry removal; the entry stored under the name is deleted. -/
def remove_technology (reg : Registry) (name : String) : Registry :=
  reg.filter (fun t => t.name != name)

/-- Embedding of clear_technologies (lines 78 to 81): empties the
registry. -/
def clear_technologies (_ : Registry) : Registry := []

/-- Embedding of technology_names (lines 32 to 39): collects the names of
all registered records in registry order. -/
def technology_names (reg : Registry) : List String :=
  reg.map (fun t => t.name)

/-! ## XML codec model (tlXMLWriter / tlXMLParser) -/

/-- Modelled from the spec: an element value of the technology XML
document. The external serializer renders string, numeric and boolean
fields; the spec requires only semantic (field-by-field) equality for the
round trip, so values are kept structured. -/
inductive XmlVal where
  | s : String → XmlVal
  | q : ℚ → XmlVal
  | b : Bool → XmlVal
deriving DecidableEq

/-- Modelled from the spec: the XML document produced for one technology
record — a root element name and the child elements in document order. -/
structure XmlDoc where
  root : String
  elems : List (String × XmlVal)
deriving DecidableEq

/-- Modelled from the spec: the field-to-element mapping declared by the
record type (db::Technology::xml_elements), applied by the external
structure-to-XML serializer under the fixed root element technology. -/
def technology_to_doc (t : Technology) : XmlDoc :=
  ⟨"technology",
    [("name", XmlVal.s t.name),
     ("description", XmlVal.s t.description),
     ("group", XmlVal.s t.group),
     ("default-base-path", XmlVal.s t.default_base_path),
     ("explicit-base-path", XmlVal.s t.explicit_base_path),
     ("dbu", XmlVal.q t.dbu),
     ("default-grids", XmlVal.s t.default_grids),
     ("layer-properties-file", XmlVal.s t.layer_properties_file),
     ("add-other-layers", XmlVal.b t.add_other_layers)]⟩

/-- Lookup of the first child element with the given tag. -/
def xml_find (elems : List (String × XmlVal)) (tag : String) : Option XmlVal :=
  (elems.find? (fun e => e.1 == tag)).map Prod.snd

/-- Read a string field: absent fields keep the default value, a value of
the wrong shape is a parse failure. -/
def readS (elems : List (String × XmlVal)) (tag : String) (dflt : String) :
    Except String String :=
  match xml_find elems tag with
  | none => Except.ok dflt
  | some (XmlVal.s v) => Except.ok v
  | some _ => Except.error "element type mismatch"

/-- Read a numeric field: absent fields keep the default value. -/
def readQ (elems : List (String × XmlVal)) (tag : String) (dflt : ℚ) :
    Except String ℚ :=
  match xml_find elems tag with
  | none => Except.ok dflt
  | some (XmlVal.q v) => Except.ok v
  | some _ => Except.error "element type mismatch"

/-- Read a boolean field: absent fields keep the default value. -/
def readB (elems : List (String × XmlVal)) (tag : String) (dflt : Bool) :
    Except String Bool :=
  match xml_find elems tag with
  | none => Except.ok dflt
  | some (XmlVal.b v) => Except.ok v
  | some _ => Except.error "element type mismatch"

/-- Modelled from the spec: the external XML parser applied with the same
field-to-element mapping (technology_from_xml, lines 83 to 90, forwards to
it). The parse starts from a freshly constructed, default-initialized
record; fields absent from the input retain their default values; a
document of the wrong shape signals a parse failure. -/
def technology_from_doc (d : XmlDoc) : Except String Technology :=
  if d.root == "technology" then do
    let name ← readS d.elems "name" emptyTechnology.name
    let description ← readS d.elems "description" emptyTechnology.description
    let group ← readS d.elems "group" emptyTechnology.group
    let dbp ← readS d.elems "default-base-path" emptyTechnology.default_base_path
    let ebp ← readS d.elems "explicit-base-path" emptyTechnology.explicit_base_path
    let dbu ← readQ d.elems "dbu" emptyTechnology.dbu
    let grids ← readS d.elems "default-grids" emptyTechnology.default_grids
    let lpf ← readS d.elems "layer-properties-file" emptyTechnology.layer_properties_file
    let aol ← readB d.elems "add-other-layers" emptyTechnology.add_other_layers
    Except.ok
      { name := name, description := description, group := group,
        default_base_path := dbp, explicit_base_path := ebp, dbu := dbu,
        default_grids := grids, layer_properties_file := lpf,
        add_other_layers := aol }
  else
    Except.error "root element mismatch"

/-- Modelled from the spec: text of one element value as written by the
external XML writer. -/
def renderVal : XmlVal → String
  | XmlVal.s v => v
  | XmlVal.q v => toString v
  | XmlVal.b v => toString v

/-- Modelled from the spec: text of one child element. -/
def renderElem (e : String × XmlVal) : String :=
  "<" ++ e.1 ++ ">" ++ renderVal e.2 ++ "</" ++ e.1 ++ ">"

/-- Modelled from the spec: text of the whole document. -/
def render (d : XmlDoc) : String :=
  "<" ++ d.root ++ ">" ++ String.join (d.elems.map renderElem) ++
    "</" ++ d.root ++ ">"

/-- Embedding of technology_to_xml (gsiDeclDbTechnologies.cc, lines 92 to
103): a null record reference yields the empty string; otherwise the
record is written with the external serializer under the root element
technology. -/
def technology_to_xml (tech : Option Technology) : String :=
  match tech with
  | none => ""
  | some t => render (technology_to_doc t)

/-! ## Hover-event adaptor model (gsiDeclQHoverEvent.cc, lines 143 to 247) -/

/-- Modelled from the spec: the GUI toolkit base event class (QHoverEvent)
is an external collaborator; its observable behavior for the five adapted
virtual methods is abstracted as a state record — the three query results
and the two writable attributes. -/
structure QHoverEventV where
  isBeginEvent : Bool := false
  isEndEvent : Bool := false
  isUpdateEvent : Bool := true
  accepted : Bool := false
  timestamp : Nat := 0
deriving DecidableEq

/-- Modelled from the spec: the base-class implementation
QHoverEvent::setAccepted stores the flag. -/
def QHoverEventV.base_setAccepted (e : QHoverEventV) (b : Bool) :
    QHoverEventV :=
  { e with accepted := b }

/-- Modelled from the spec: the base-class implementation
QHoverEvent::setTimestamp stores the timestamp. -/
def QHoverEventV.base_setTimestamp (e : QHoverEventV) (ts : Nat) :
    QHoverEventV :=
  { e with timestamp := ts }

/-- Embedding of the QHoverEvent_Adaptor class: the base-class state plus
one optional scripting callback per adapted virtual method. A callback of
none models a callback that cannot issue. -/
structure QHoverEvent_Adaptor where
  base : QHoverEventV
  cb_isBeginEvent : Option (QHoverEventV → Bool) := none
  cb_isEndEvent : Option (QHoverEventV → Bool) := none
  cb_isUpdateEvent : Option (QHoverEventV → Bool) := none
  cb_setAccepted : Option (QHoverEventV → Bool → QHoverEventV) := none
  cb_setTimestamp : Option (QHoverEventV → Nat → QHoverEventV) := none

/-- Embedding of the isBeginEvent override (lines 173 to 180): issue the
callback when it can issue, otherwise call the base-class implementation. -/
def QHoverEvent_Adaptor.isBeginEvent (a : QHoverEvent_Adaptor) : Bool :=
  match a.cb_isBeginEvent with
  | some cb => cb a.base
  | none => a.base.isBeginEvent

/-- Embedding of the isEndEvent override (lines 188 to 195). -/
def QHoverEvent_Adaptor.isEndEvent (a : QHoverEvent_Adaptor) : Bool :=
  match a.cb_isEndEvent with
  | some cb => cb a.base
  | none => a.base.isEndEvent

/-- Embedding of the isUpdateEvent override (lines 203 to 210). -/
def QHoverEvent_Adaptor.isUpdateEvent (a : QHoverEvent_Adaptor) : Bool :=
  match a.cb_isUpdateEvent with
  | some cb => cb a.base
  | none => a.base.isUpdateEvent

/-- Embedding of the setAccepted override (lines 218 to 225). -/
def QHoverEvent_Adaptor.setAccepted (a : QHoverEvent_Adaptor) (accepted : Bool) :
    QHoverEvent_Adaptor :=
  { a with base :=
      match a.cb_setAccepted with
      | some cb => cb a.base accepted
      | none => a.base.base_setAccepted accepted }

/-- Embedding of the setTimestamp override (lines 233 to 240). -/
def QHoverEvent_Adaptor.setTimestamp (a : QHoverEvent_Adaptor) (ts : Nat) :
    QHoverEvent_Adaptor :=
  { a with base :=
      match a.cb_setTimestamp with
      | some cb => cb a.base ts
      | none => a.base.base_setTimestamp ts }

/-! ## Basic string facts -/

theorem str_ne_empty_iff (s : String) : s ≠ "" ↔ s.data ≠ [] := by
  constructor
  · intro h hd
    exact h (String.ext hd)
  · intro h hs
    rw [hs] at h
    exact h rfl

theorem str_empty_append (s : String) : "" ++ s = s := by
  apply String.ext
  rw [String.data_append]
  rfl

theorem append_ne_empty_left (a b : String) (h : a ≠ "") : a ++ b ≠ "" := by
  rw [str_ne_empty_iff] at h ⊢
  rw [String.data_append]
  intro hc
  exact h (List.append_eq_nil.mp hc).1

theorem natReprAux_ne_nil (fuel n : Nat) (acc : List Char) :
    natReprAux fuel n acc ≠ [] := by
  induction fuel generalizing n acc with
  | zero => simp [natReprAux]
  | succ fuel ih =>
    simp only [natReprAux]
    split
    · simp
    · exact ih _ _

theorem micron_to_string_ne_empty (q : ℚ) : micron_to_string q ≠ "" := by
  rw [str_ne_empty_iff]
  show _ ++ natDecimal _ ++ _ ≠ []
  intro hc
  rcases List.append_eq_nil.mp hc with ⟨hc1, _⟩
  rcases List.append_eq_nil.mp hc1 with ⟨_, hc3⟩
  exact natReprAux_ne_nil _ _ _ hc3

theorem gridEntry_ne_empty (d g : ℚ) : gridEntry d g ≠ "" :=
  append_ne_empty_left _ _ (micron_to_string_ne_empty g)

/-! ## The marker character never occurs inside a formatted number -/

theorem digitChar10_ne_bang (n : Nat) : digitChar10 n ≠ '!' := by
  have h : n % 10 < 10 := Nat.mod_lt _ (by decide)
  unfold digitChar10
  revert h
  generalize n % 10 = m
  intro h
  interval_cases m <;> decide

theorem mem_natReprAux (fuel n : Nat) (acc : List Char) (c : Char)
    (h : c ∈ natReprAux fuel n acc) : (∃ m, c = digitChar10 m) ∨ c ∈ acc := by
  induction fuel generalizing n acc with
  | zero =>
    simp only [natReprAux, List.mem_cons] at h
    rcases h with h | h
    · exact Or.inl ⟨n, h⟩
    · exact Or.inr h
  | succ fuel ih =>
    simp only [natReprAux] at h
    split at h
    · rcases List.mem_cons.mp h with h | h
      · exact Or.inl ⟨n, h⟩
      · exact Or.inr h
    · rcases ih _ _ h with h | h
      · exact Or.inl h
      · rcases List.mem_cons.mp h with h | h
        · exact Or.inl ⟨n, h⟩
        · exact Or.inr h

theorem bang_not_mem_natDecimal (n : Nat) : '!' ∉ natDecimal n := by
  intro h
  rcases mem_natReprAux _ _ _ _ h with ⟨m, hm⟩ | h
  · exact digitChar10_ne_bang m hm.symm
  · simp at h

theorem bang_not_mem_stripZeros_pad5 (m : Nat) : '!' ∉ stripZeros (pad5 m) := by
  intro h
  have hsub : '!' ∈ pad5 m := by
    have := (List.dropWhile_sublist (fun c => c == '0')).subset
      (List.mem_reverse.mp (by simpa [stripZeros] using h))
    exact List.mem_reverse.mp this
  simp only [pad5, List.mem_append] at hsub
  rcases hsub with hsub | hsub
  · simp [List.eq_of_mem_replicate hsub] at hsub
  · exact bang_not_mem_natDecimal _ hsub

theorem bang_not_mem_micron (q : ℚ) : '!' ∉ (micron_to_string q).data := by
  intro h
  simp only [micron_to_string, List.mem_append] at h
  rcases h with (h | h) | h
  · split at h <;> simp at h
  · exact bang_not_mem_natDecimal _ h
  · split at h
    · simp at h
    · rcases List.mem_cons.mp h with h | h
      · simp at h
      · exact bang_not_mem_stripZeros_pad5 _ h

/-! ## Counting the markers produced by the encoder -/

theorem count_bang_grid_fold (d : ℚ) (xs : List ℚ) (r : String) :
    ((xs.foldl
        (fun r g =>
          (if r = "" then r else r ++ ",") ++ micron_to_string g ++
            (if dequals g d then "!" else "")) r).data.count '!')
      = r.data.count '!' + xs.countP (fun g => dequals g d) := by
  induction xs generalizing r with
  | nil => simp
  | cons x xs ih =>
    rw [List.foldl_cons, ih, List.countP_cons]
    have hstep :
        (((if r = "" then r else r ++ ",") ++ micron_to_string x ++
            (if dequals x d then "!" else "")).data.count '!')
          = r.data.count '!' + (if dequals x d then 1 else 0) := by
      rw [String.data_append, String.data_append, List.count_append,
        List.count_append]
      have h1 : ((if r = "" then r else r ++ ",") : String).data.count '!'
          = r.data.count '!' := by
        split
        · rfl
        · rw [String.data_append, List.count_append]
          rfl
      have h2 : (micron_to_string x).data.count '!' = 0 :=
        List.count_eq_zero.mpr (bang_not_mem_micron x)
      have h3 : ((if dequals x d then ("!" : String) else "")).data.count '!'
          = (if dequals x d then 1 else 0) := by
        split <;> rfl
      rw [h1, h2, h3]
      omega
    rw [hstep]
    omega

/-! ## The encoder loop produces the comma-separated entry list -/

theorem set_default_grid_list2_grids (t : Technology) (grids : List ℚ)
    (d : ℚ) :
    (set_default_grid_list2 t grids d).default_grids
      = grids.foldl
          (fun r g =>
            (if r = "" then r else r ++ ",") ++ micron_to_string g ++
              (if dequals g d then "!" else "")) "" := rfl

theorem grid_fold_from_nonempty (d : ℚ) (gs : List ℚ) :
    ∀ r : String, r ≠ "" →
      gs.foldl
          (fun r g =>
            (if r = "" then r else r ++ ",") ++ micron_to_string g ++
              (if dequals g d then "!" else "")) r
        = (gs.map (gridEntry d)).foldl (fun a y => a ++ "," ++ y) r := by
  induction gs with
  | nil => intro r _; rfl
  | cons x xs ih =>
    intro r hr
    rw [List.foldl_cons, List.map_cons, List.foldl_cons]
    have hx : (if r = "" then r else r ++ ",") ++ micron_to_string x ++
        (if dequals x d then "!" else "") = r ++ "," ++ gridEntry d x := by
      simp only [gridEntry]
      rw [if_neg hr, String.append_assoc]
    rw [hx]
    exact ih _ (append_ne_empty_left _ _ (append_ne_empty_left _ _ hr))

theorem grid_fold_eq_commaSeparated (d : ℚ) (grids : List ℚ) :
    grids.foldl
        (fun r g =>
          (if r = "" then r else r ++ ",") ++ micron_to_string g ++
            (if dequals g d then "!" else "")) ""
      = commaSeparated (grids.map (gridEntry d)) := by
  cases grids with
  | nil => rfl
  | cons g gs =>
    rw [List.foldl_cons, List.map_cons]
    have h0 : (if ("" : String) = "" then ("" : String) else "" ++ ",") ++
        micron_to_string g ++ (if dequals g d then "!" else "")
          = gridEntry d g := by
      rw [if_pos rfl, str_empty_append]
      simp only [gridEntry]
    rw [h0]
    show _ = (gs.map (gridEntry d)).foldl (fun r y => r ++ "," ++ y)
      (gridEntry d g)
    exact grid_fold_from_nonempty d gs _ (gridEntry_ne_empty d g)

theorem count_bang_set_default_grid_list2 (t : Technology) (grids : List ℚ)
    (d : ℚ) :
    (set_default_grid_list2 t grids d).default_grids.data.count '!'
      = grids.countP (fun g => dequals g d) := by
  rw [set_default_grid_list2_grids, count_bang_grid_fold]
  simp

/-! ## Claims C1, C4 and C5 about the grid-list codec -/

/-- Claim C1: for every list of grid values and every default_grid value,
the grid-list encoder (set_default_grids, implemented by
set_default_grid_list2) stores a comma-separated string containing the
micron-format text of each input value in exactly the input order, with no
sorting and no deduplication, and with the marker appended directly after
precisely those entries that are tolerance-equal to default_grid. -/
theorem c1_set_default_grid_list2_encoding (tech : Technology)
    (grids : List ℚ) (default_grid : ℚ) :
    (set_default_grid_list2 tech grids default_grid).default_grids
      = commaSeparated
          (grids.map
            (fun g => micron_to_string g ++
              (if dequals g default_grid then "!" else ""))) := by
  rw [set_default_grid_list2_grids, grid_fold_eq_commaSeparated]
  rfl

/-- Claim C4: the single-argument setter default_grids= delegates to the
two-argument form with a default grid of 0.0; for grid values that are not
tolerance-equal to 0 no entry is marked as default, and the stored string
does not depend on the technology record the setter is applied to, so any
previously stored default-grid marking is cleared. -/
theorem c4_set_default_grid_list_spec (tech : Technology) (grids : List ℚ) :
    set_default_grid_list tech grids = set_default_grid_list2 tech grids 0
    ∧ ((∀ g ∈ grids, dequals g 0 = false) →
        (set_default_grid_list tech grids).default_grids
          = commaSeparated (grids.map micron_to_string))
    ∧ (∀ t2 : Technology, (set_default_grid_list t2 grids).default_grids
          = (set_default_grid_list tech grids).default_grids) := by
  refine ⟨rfl, ?_, fun t2 => rfl⟩
  intro h
  show (set_default_grid_list2 tech grids 0).default_grids = _
  rw [set_default_grid_list2_grids, grid_fold_eq_commaSeparated]
  congr 1
  apply List.map_congr_left
  intro g hg
  simp [gridEntry, h g hg]

/-- Witness for claim C4 at the concrete grid list [0.01, 0.05]. -/
theorem c4_witness :
    (∀ g ∈ [(1 : ℚ)/100, 1/20], dequals g 0 = false)
    ∧ ((set_default_grid_list emptyTechnology [(1 : ℚ)/100, 1/20]).default_grids
        = commaSeparated ([(1 : ℚ)/100, 1/20].map micron_to_string)) := by
  have h : ∀ g ∈ [(1 : ℚ)/100, 1/20], dequals g 0 = false := by
    intro g hg
    simp only [List.mem_cons, List.mem_singleton] at hg
    rcases hg with rfl | rfl | h
    · norm_num [dequals]
    · norm_num [dequals]
    · simp at h
  exact ⟨h,
    (c4_set_default_grid_list_spec emptyTechnology [(1 : ℚ)/100, 1/20]).2.1 h⟩

/-- Claim C5 counterexample: applying set_default_grids with the grid list
[0.01, 0.01] and default grid 0.01 marks both entries, so more than one
entry of the stored default-grid list carries the default marker, refuting
the invariant that at most one entry is flagged as the default grid. -/
theorem c5_counterexample :
    ¬ ((set_default_grid_list2 emptyTechnology [1/100, 1/100]
          (1/100)).default_grids.data.count '!' ≤ 1) := by
  have hd : dequals ((1 : ℚ)/100) (1/100) = true := by norm_num [dequals]
  rw [count_bang_set_default_grid_list2]
  simp only [List.countP_cons, List.countP_nil]
  rw [hd]
  simp

/-- Claim C5 (amended): the entries of the stored default-grid list that
carry the default marker are exactly the list entries tolerance-equal to
the supplied default value — their number equals the number of such
entries and can exceed one when several entries are tolerance-equal to the
default; every marker is attached to a value present in the list, and a
default value tolerance-equal to no entry marks nothing (a no-op, not an
error). -/
theorem c5_amended_marking (tech : Technology) (grids : List ℚ) (d : ℚ) :
    ((set_default_grid_list2 tech grids d).default_grids.data.count '!'
        = grids.countP (fun g => dequals g d))
    ∧ ((∀ g ∈ grids, dequals g d = false) →
        (set_default_grid_list2 tech grids d).default_grids
          = commaSeparated (grids.map micron_to_string)) := by
  constructor
  · exact count_bang_set_default_grid_list2 tech grids d
  · intro h
    rw [set_default_grid_list2_grids, grid_fold_eq_commaSeparated]
    congr 1
    apply List.map_congr_left
    intro g hg
    simp [gridEntry, h g hg]

/-- Witness for claim C5 (amended) at the grid list [0.01] with default
grid 1. -/
theorem c5_witness :
    ((set_default_grid_list2 emptyTechnology [(1 : ℚ)/100]
        1).default_grids.data.count '!'
      = [(1 : ℚ)/100].countP (fun g => dequals g 1))
    ∧ (∀ g ∈ [(1 : ℚ)/100], dequals g 1 = false)
    ∧ ((set_default_grid_list2 emptyTechnology [(1 : ℚ)/100] 1).default_grids
        = commaSeparated ([(1 : ℚ)/100].map micron_to_string)) := by
  have h : ∀ g ∈ [(1 : ℚ)/100], dequals g 1 = false := by
    intro g hg
    simp only [List.mem_singleton] at hg
    subst hg
    norm_num [dequals]
  exact ⟨(c5_amended_marking emptyTechnology [(1 : ℚ)/100] 1).1, h,
    (c5_amended_marking emptyTechnology [(1 : ℚ)/100] 1).2 h⟩

/-! ## Registry facts -/

theorem technology_by_name_of_has_false (reg : Registry) (n : String)
    (h : has_technology reg n = false) : technology_by_name reg n = none := by
  simp only [has_technology, List.any_eq_false] at h
  exact List.find?_eq_none.mpr h

/-! ## Claims C6 to C9 about the registry forwarding functions -/

/-- Claim C6: registering a record whose name is already present signals a
failure to the caller instead of silently overwriting, and the registry —
hence the record stored under that name — is unchanged afterward. -/
theorem c6_register_collision (reg : Registry) (tech : Technology)
    (h : has_technology reg tech.name = true) :
    (∃ e, register_technology reg tech = Except.error e)
    ∧ register_run reg tech = reg
    ∧ technology_by_name (register_run reg tech) tech.name
        = technology_by_name reg tech.name := by
  have herr : register_technology reg tech
      = Except.error "a technology with this name already exists" := by
    simp [register_technology, add_new, h]
  refine ⟨⟨_, herr⟩, ?_, ?_⟩
  · simp [register_run, herr]
  · simp [register_run, herr]

/-- Witness for claim C6: registering a second record named A over a
registry that already holds a record named A. -/
theorem c6_witness :
    (∃ e, register_technology [emptyTechnology.set_name "A"]
        (emptyTechnology.set_name "A") = Except.error e)
    ∧ register_run [emptyTechnology.set_name "A"]
        (emptyTechnology.set_name "A") = [emptyTechnology.set_name "A"]
    ∧ technology_by_name
        (register_run [emptyTechnology.set_name "A"]
          (emptyTechnology.set_name "A"))
        (emptyTechnology.set_name "A").name
        = technology_by_name [emptyTechnology.set_name "A"]
            (emptyTechnology.set_name "A").name :=
  c6_register_collision [emptyTechnology.set_name "A"]
    (emptyTechnology.set_name "A") rfl

/-- Claim C7: after create_technology succeeds for a name X, the registry
contains X, and lookup by X returns the stored copy, a record whose name
field equals X. -/
theorem c7_create_technology_spec (reg : Registry) (X : String)
    (t : Technology) (reg2 : Registry)
    (h : create_technology reg X = Except.ok (t, reg2)) :
    has_technology reg2 X = true
    ∧ technology_by_name reg2 X = some t
    ∧ t.name = X := by
  simp only [create_technology, add_new, Technology.set_name] at h
  split at h
  · simp at h
  · rename_i hcol
    simp only [Except.ok.injEq, Prod.mk.injEq] at h
    obtain ⟨rfl, rfl⟩ := h
    have hfalse : has_technology reg X = false := by
      simpa [Technology.set_name] using hcol
    refine ⟨?_, ?_, rfl⟩
    · simp [has_technology, List.any_append, Technology.set_name]
    · have hnone : technology_by_name reg X = none :=
        technology_by_name_of_has_false reg X hfalse
      simp only [technology_by_name] at hnone ⊢
      rw [List.find?_append, hnone]
      simp [Technology.set_name, List.find?]

/-- Witness for claim C7: creating a technology named X in an empty
registry. -/
theorem c7_witness :
    create_technology [] "X"
      = Except.ok (emptyTechnology.set_name "X", [emptyTechnology.set_name "X"])
    ∧ has_technology [emptyTechnology.set_name "X"] "X" = true
    ∧ technology_by_name [emptyTechnology.set_name "X"] "X"
        = some (emptyTechnology.set_name "X")
    ∧ (emptyTechnology.set_name "X").name = "X" := by
  have h : create_technology [] "X"
      = Except.ok (emptyTechnology.set_name "X",
          [emptyTechnology.set_name "X"]) := rfl
  have hc := c7_create_technology_spec [] "X" (emptyTechnology.set_name "X")
    [emptyTechnology.set_name "X"] h
  exact ⟨h, hc.1, hc.2.1, hc.2.2⟩

/-- Claim C8: removing a name leaves the registry without a record of that
name, and clearing the registry leaves an empty name list. -/
theorem c8_remove_clear_spec (reg : Registry) (X : String) :
    has_technology (remove_technology reg X) X = false
    ∧ technology_names (clear_technologies reg) = [] := by
  refine ⟨?_, rfl⟩
  simp only [has_technology, remove_technology]
  rw [List.any_eq_false]
  intro x hx
  have hmem := List.mem_filter.mp hx
  simp only [bne_iff_ne, ne_eq] at hmem
  simp [hmem.2]

/-- Claim C9: create_technology is the same operation as
register_technology applied to a default-constructed record whose name
field is set: both insert a copy through the same registry add_new
operation, so results, returned stored copy and failure behavior agree
for every registry state and name. -/
theorem c9_create_eq_register (reg : Registry) (name : String) :
    create_technology reg name
      = register_technology reg (emptyTechnology.set_name name) := rfl

/-! ## Claims C2 and C3 about the XML codec adaptor -/

/-- Claim C2: deserializing the serialized form of any technology record —
including records with arbitrary field values and empty optional fields —
yields a record equal field by field to the original. -/
theorem c2_technology_xml_round_trip (r : Technology) :
    technology_from_doc (technology_to_doc r) = Except.ok r := rfl

/-- Claim C3: serializing a null record reference returns the empty string
rather than an error, and serializing a record with at least a name set
never returns the empty string. -/
theorem c3_to_xml_null_and_nonempty :
    technology_to_xml none = ""
    ∧ ∀ t : Technology, t.name ≠ "" → technology_to_xml (some t) ≠ "" := by
  constructor
  · rfl
  · intro t _
    show render (technology_to_doc t) ≠ ""
    unfold render
    repeat apply append_ne_empty_left
    decide

/-- Witness for claim C3: a record whose only set field is the name X. -/
theorem c3_witness :
    technology_to_xml none = ""
    ∧ ({ name := "X" } : Technology).name ≠ ""
    ∧ technology_to_xml (some { name := "X" }) ≠ "" :=
  ⟨c3_to_xml_null_and_nonempty.1, by decide,
    c3_to_xml_null_and_nonempty.2 { name := "X" } (by decide)⟩

/-! ## Claim C10 about the hover-event adaptor -/

/-- Claim C10: when no scripting callback is installed, each of the five
virtual-method overrides of the adaptor returns exactly the result of —
or performs exactly the effect of — the base-class implementation, so an
adaptor without installed overrides behaves like the plain base event for
these methods. -/
theorem c10_adaptor_defaults (a : QHoverEvent_Adaptor)
    (h1 : a.cb_isBeginEvent = none) (h2 : a.cb_isEndEvent = none)
    (h3 : a.cb_isUpdateEvent = none) (h4 : a.cb_setAccepted = none)
    (h5 : a.cb_setTimestamp = none) :
    a.isBeginEvent = a.base.isBeginEvent
    ∧ a.isEndEvent = a.base.isEndEvent
    ∧ a.isUpdateEvent = a.base.isUpdateEvent
    ∧ (∀ b, (a.setAccepted b).base = a.base.base_setAccepted b)
    ∧ (∀ ts, (a.setTimestamp ts).base = a.base.base_setTimestamp ts) := by
  refine ⟨?_, ?_, ?_, fun b => ?_, fun ts => ?_⟩ <;>
    simp [QHoverEvent_Adaptor.isBeginEvent, QHoverEvent_Adaptor.isEndEvent,
      QHoverEvent_Adaptor.isUpdateEvent, QHoverEvent_Adaptor.setAccepted,
      QHoverEvent_Adaptor.setTimestamp, h1, h2, h3, h4, h5]

/-- Witness for claim C10: an adaptor over a default base state with no
callbacks installed. -/
theorem c10_witness :
    (({ base := {} } : QHoverEvent_Adaptor).cb_isBeginEvent = none)
    ∧ (({ base := {} } : QHoverEvent_Adaptor).isBeginEvent
        = ({ base := {} } : QHoverEvent_Adaptor).base.isBeginEvent)
    ∧ (({ base := {} } : QHoverEvent_Adaptor).isUpdateEvent
        = ({ base := {} } : QHoverEvent_Adaptor).base.isUpdateEvent)
    ∧ ((({ base := {} } : QHoverEvent_Adaptor).setAccepted true).base
        = ({ base := {} } : QHoverEvent_Adaptor).base.base_setAccepted true)
    ∧ ((({ base := {} } : QHoverEvent_Adaptor).setTimestamp 5).base
        = ({ base := {} } : QHoverEvent_Adaptor).base.base_setTimestamp 5) := by
  have hc := c10_adaptor_defaults { base := {} } rfl rfl rfl rfl rfl
  exact ⟨rfl, hc.1, hc.2.2.1, hc.2.2.2.1 true, hc.2.2.2.2 5⟩
